import Mathlib

/-!
Verification of the hypergeometric calculator (src/l.py).

The Python module holds four parameters N, K, n, k (each either unset,
an int, or a bool, since Python bools are instances of int) plus a
description string, validates them, and computes hypergeometric
probabilities through scipy. The scipy routines hypergeom.pmf and
hypergeom.cdf are modelled by their documented exact semantics over the
rationals: pmf(k, M, KK, nn) = C(KK, k) * C(M - KK, nn - k) / C(M, nn)
with the binomial coefficient C(a, b) equal to 0 when b < 0 or b > a,
and cdf(t, ...) the sum of the point masses at 0 .. t (empty when t < 0).
-/

/-- A Python value as far as the calculator fields are concerned: the
unset marker None, an int, a bool (which isinstance treats as an int,
with True equal to 1 and False equal to 0), or any other object. -/
inductive PyVal where
  | vNone : PyVal
  | vInt : Int → PyVal
  | vBool : Bool → PyVal
  | vOther : PyVal
deriving DecidableEq

/-- Python isinstance(x, int): true for ints and for bools. -/
def PyVal.isInstanceInt : PyVal → Bool
  | PyVal.vInt _ => true
  | PyVal.vBool _ => true
  | _ => false

/-- The integer value of an int-like Python value (True is 1, False is 0).
Only used on fields that passed the isinstance check. -/
def PyVal.toInt : PyVal → Int
  | PyVal.vInt i => i
  | PyVal.vBool b => if b then 1 else 0
  | _ => 0

/-- The state of a HypergeometricCalculator object: the four parameter
fields and the description string. -/
structure HypergeometricCalculator where
  N : PyVal
  K : PyVal
  n : PyVal
  k : PyVal
  name : String
deriving DecidableEq

/-- The constructor with all defaults: every parameter unset, the default
description. -/
def initCalculator : HypergeometricCalculator :=
  ⟨PyVal.vNone, PyVal.vNone, PyVal.vNone, PyVal.vNone, "Hypergeometric Probability"⟩

/-- set_parameters: assigns the four parameter fields; the name field is
assigned only when the name argument is not None. -/
def set_parameters (c : HypergeometricCalculator) (N K n k : PyVal)
    (nm : Option String) : HypergeometricCalculator :=
  match nm with
  | some s => ⟨N, K, n, k, s⟩
  | none => ⟨N, K, n, k, c.name⟩

/-- validate_inputs: raises ValueError (modelled as Except.error with the
message) when a field is None, a field is not an int by isinstance, a
field is negative, or n is greater than N, K is greater than N, or k is
greater than n; otherwise returns normally. -/
def validate_inputs (c : HypergeometricCalculator) : Except String Unit :=
  if c.N = PyVal.vNone ∨ c.K = PyVal.vNone ∨ c.n = PyVal.vNone ∨ c.k = PyVal.vNone then
    Except.error "All parameters must be set before calculating"
  else if ¬(c.N.isInstanceInt ∧ c.K.isInstanceInt ∧ c.n.isInstanceInt ∧ c.k.isInstanceInt) then
    Except.error "All parameters must be integers"
  else if c.N.toInt < 0 ∨ c.K.toInt < 0 ∨ c.n.toInt < 0 ∨ c.k.toInt < 0 then
    Except.error "All parameters must be non-negative"
  else if c.n.toInt > c.N.toInt ∨ c.K.toInt > c.N.toInt ∨ c.k.toInt > c.n.toInt then
    Except.error "Invalid parameter combinations"
  else
    Except.ok ()

/-- The binomial coefficient C(a, b) on integers, equal to 0 when b < 0
or b > a (the convention of math.comb and of the scipy hypergeometric
routines on their validated domain). -/
def binomCoeff (a b : Int) : Int :=
  if 0 ≤ b ∧ b ≤ a then Nat.choose a.toNat b.toNat else 0

/-- Model of scipy.stats.hypergeom.pmf(k, N, K, n) as an exact rational:
C(K, k) * C(N - K, n - k) / C(N, n). -/
def hypergeomPmf (k N K n : Int) : ℚ :=
  (binomCoeff K k : ℚ) * (binomCoeff (N - K) (n - k) : ℚ) / (binomCoeff N n : ℚ)

/-- Model of scipy.stats.hypergeom.cdf(t, N, K, n) as an exact rational:
the sum of the point masses at 0 .. t, and 0 when t < 0. -/
def hypergeomCdf (t N K n : Int) : ℚ :=
  if t < 0 then 0
  else ∑ j ∈ Finset.range (t.toNat + 1), hypergeomPmf (j : Int) N K n

/-- calculate_probability: validates and then returns the exact point
mass for the four fields. Validation failure propagates. -/
def calculate_probability (c : HypergeometricCalculator) : Except String ℚ :=
  match validate_inputs c with
  | Except.error e => Except.error e
  | Except.ok _ =>
      Except.ok (hypergeomPmf c.k.toInt c.N.toInt c.K.toInt c.n.toInt)

/-- calculate_all_probabilities: validates and then returns the triple
(prob_less, prob_exact, prob_more) with prob_less the cdf at k - 1,
prob_exact the point mass at k, and prob_more equal to
1 - (prob_less + prob_exact). Validation failure propagates. -/
def calculate_all_probabilities (c : HypergeometricCalculator) :
    Except String (ℚ × ℚ × ℚ) :=
  match validate_inputs c with
  | Except.error e => Except.error e
  | Except.ok _ =>
      let prob_exact := hypergeomPmf c.k.toInt c.N.toInt c.K.toInt c.n.toInt
      let prob_less := hypergeomCdf (c.k.toInt - 1) c.N.toInt c.K.toInt c.n.toInt
      let prob_more := 1 - (prob_less + prob_exact)
      Except.ok (prob_less, prob_exact, prob_more)

/-- Python str.center and the caret format directive: pad with spaces to
the given width, the extra space (for odd padding) going to the right. -/
def centerPad (s : String) (w : Nat) : String :=
  if w ≤ s.length then s
  else
    let total := w - s.length
    let left := total / 2
    String.mk (List.replicate left ' ') ++ s ++ String.mk (List.replicate (total - left) ' ')

/-- The str() text of a Python field value, used in the report headers. -/
def PyVal.pyStr : PyVal → String
  | PyVal.vNone => "None"
  | PyVal.vInt i => toString i
  | PyVal.vBool b => if b then "True" else "False"
  | PyVal.vOther => "object"

/-- Rendering of a rational to two decimal places (the .2f directive
applied to a probability scaled to a percentage): round to the nearest
hundredth, ties to even. -/
def format2f (q : ℚ) : String :=
  let fl : Int := ⌊q * 100⌋
  let frac : ℚ := q * 100 - (fl : ℚ)
  let r : Int :=
    if frac > 1 / 2 then fl + 1
    else if frac < 1 / 2 then fl
    else if fl % 2 = 0 then fl else fl + 1
  let sign := if r < 0 then "-" else ""
  let a := r.natAbs
  sign ++ toString (a / 100) ++ "." ++ (if a % 100 < 10 then "0" else "") ++ toString (a % 100)

/-- display_probabilities: computes the three probabilities and returns
the object together with the printed lines; on a validation error it
catches the error and prints an error line instead of raising, with the
object unchanged. -/
def display_probabilities (c : HypergeometricCalculator) :
    HypergeometricCalculator × List String :=
  match calculate_all_probabilities c with
  | Except.error e => (c, ["Error: " ++ e])
  | Except.ok (prob_less, prob_exact, prob_more) =>
      let header1 := "\n" ++ c.name
      let header2 := "Total population size: " ++ c.N.pyStr ++ ", with " ++ c.K.pyStr
        ++ " success states in population"
      let header3 := "Number of draws: " ++ c.n.pyStr ++ ", with a target number of "
        ++ c.k.pyStr ++ " successes"
      let headers := ["Less than " ++ c.k.pyStr, "Exactly " ++ c.k.pyStr,
        "More than " ++ c.k.pyStr]
      let values := [format2f (prob_less * 100), format2f (prob_exact * 100),
        format2f (prob_more * 100)]
      let headerLine := "- " ++ String.intercalate " - " (headers.map (centerPad · 22)) ++ " -"
      let valuesLine := "- " ++ String.intercalate " - " (values.map (centerPad · 22)) ++ " -"
      (c, [header1, header2, header3, centerPad headerLine 80, centerPad valuesLine 80])

/-- One call of calculate_all_probabilities together with the state of
the object after the call: the method body assigns no field, so the
object after the call is the object before it. -/
def calculate_all_probabilities_run (c : HypergeometricCalculator) :
    Except String (ℚ × ℚ × ℚ) × HypergeometricCalculator :=
  (calculate_all_probabilities c, c)

/-! ## Combinatorial groundwork -/

/-- Vandermonde identity in range form. -/
lemma vandermonde_range (a b n : ℕ) :
    ∑ j ∈ Finset.range (n + 1), a.choose j * b.choose (n - j) = (a + b).choose n := by
  rw [Nat.add_choose_eq, Finset.Nat.sum_antidiagonal_eq_sum_range_succ_mk]

/-- One Vandermonde summand is at most the whole sum. -/
lemma choose_mul_choose_le (a b n j : ℕ) (hj : j ≤ n) :
    a.choose j * b.choose (n - j) ≤ (a + b).choose n := by
  rw [← vandermonde_range a b n]
  exact Finset.single_le_sum (f := fun i => a.choose i * b.choose (n - i))
    (fun i _ => Nat.zero_le _) (Finset.mem_range.mpr (Nat.lt_succ_of_le hj))

lemma binomCoeff_natCast (a b : ℕ) :
    binomCoeff (a : Int) (b : Int) = ((a.choose b : ℕ) : Int) := by
  unfold binomCoeff
  split_ifs with h
  · simp
  · have hab : a < b := by omega
    rw [Nat.choose_eq_zero_of_lt hab]
    simp

lemma binomCoeff_nonneg (a b : Int) : 0 ≤ binomCoeff a b := by
  unfold binomCoeff
  split_ifs
  · exact Int.natCast_nonneg _
  · exact le_refl 0

lemma binomCoeff_eq_zero_of_neg (a b : Int) (hb : b < 0) : binomCoeff a b = 0 := by
  unfold binomCoeff
  have h : ¬(0 ≤ b ∧ b ≤ a) := by omega
  rw [if_neg h]

lemma binomCoeff_eq_zero_of_lt (a b : Int) (hab : a < b) : binomCoeff a b = 0 := by
  unfold binomCoeff
  have h : ¬(0 ≤ b ∧ b ≤ a) := by omega
  rw [if_neg h]

lemma hypergeomPmf_natCast (N K n j : ℕ) (hK : K ≤ N) (hj : j ≤ n) :
    hypergeomPmf (j : Int) (N : Int) (K : Int) (n : Int)
      = ((K.choose j * (N - K).choose (n - j) : ℕ) : ℚ) / ((N.choose n : ℕ) : ℚ) := by
  unfold hypergeomPmf
  have h1 : ((N : Int) - (K : Int)) = ((N - K : ℕ) : Int) := by omega
  have h2 : ((n : Int) - (j : Int)) = ((n - j : ℕ) : Int) := by omega
  rw [h1, h2, binomCoeff_natCast, binomCoeff_natCast, binomCoeff_natCast]
  push_cast
  ring

lemma hypergeomPmf_nonneg (k N K n : Int) : 0 ≤ hypergeomPmf k N K n := by
  unfold hypergeomPmf
  apply div_nonneg
  · apply mul_nonneg
    · exact_mod_cast binomCoeff_nonneg K k
    · exact_mod_cast binomCoeff_nonneg (N - K) (n - k)
  · exact_mod_cast binomCoeff_nonneg N n

/-- The point masses over the full range 0 .. n sum to 1. -/
lemma pmf_sum_eq_one (N K n : ℕ) (hK : K ≤ N) (hn : n ≤ N) :
    ∑ j ∈ Finset.range (n + 1), hypergeomPmf (j : Int) (N : Int) (K : Int) (n : Int) = 1 := by
  have hpos : (0 : ℚ) < ((N.choose n : ℕ) : ℚ) := by
    exact_mod_cast Nat.choose_pos hn
  have hcongr : ∀ j ∈ Finset.range (n + 1),
      hypergeomPmf (j : Int) (N : Int) (K : Int) (n : Int)
        = ((K.choose j * (N - K).choose (n - j) : ℕ) : ℚ) / ((N.choose n : ℕ) : ℚ) := by
    intro j hj
    have hj2 : j < n + 1 := Finset.mem_range.mp hj
    exact hypergeomPmf_natCast N K n j hK (by omega)
  rw [Finset.sum_congr rfl hcongr, ← Finset.sum_div, ← Nat.cast_sum]
  rw [vandermonde_range, Nat.add_sub_cancel' hK]
  exact div_self (ne_of_gt hpos)

lemma hypergeomPmf_le_one (N K n k : Int) (hK0 : 0 ≤ K) (hKN : K ≤ N)
    (hn0 : 0 ≤ n) (hnN : n ≤ N) : hypergeomPmf k N K n ≤ 1 := by
  by_cases hk0 : 0 ≤ k
  · by_cases hkn : k ≤ n
    · have hN0 : 0 ≤ N := le_trans hn0 hnN
      lift N to ℕ using hN0
      lift K to ℕ using hK0
      lift n to ℕ using hn0
      lift k to ℕ using hk0
      have hK : K ≤ N := by exact_mod_cast hKN
      have hn : n ≤ N := by exact_mod_cast hnN
      have hk : k ≤ n := by exact_mod_cast hkn
      rw [hypergeomPmf_natCast N K n k hK hk]
      rw [div_le_one (by exact_mod_cast Nat.choose_pos hn)]
      have h := choose_mul_choose_le K (N - K) n k hk
      rw [Nat.add_sub_cancel' hK] at h
      exact_mod_cast h
    · unfold hypergeomPmf
      rw [binomCoeff_eq_zero_of_neg (N - K) (n - k) (by omega)]
      norm_num
  · unfold hypergeomPmf
    rw [binomCoeff_eq_zero_of_neg K k (by omega)]
    norm_num

lemma hypergeomCdf_nonneg (t N K n : Int) : 0 ≤ hypergeomCdf t N K n := by
  unfold hypergeomCdf
  split_ifs
  · exact le_refl 0
  · exact Finset.sum_nonneg fun j _ => hypergeomPmf_nonneg _ _ _ _

lemma hypergeomCdf_le_one (N K n : ℕ) (hK : K ≤ N) (hn : n ≤ N) (t : Int)
    (ht : t ≤ (n : Int)) : hypergeomCdf t (N : Int) (K : Int) (n : Int) ≤ 1 := by
  unfold hypergeomCdf
  split_ifs with h
  · norm_num
  · rw [← pmf_sum_eq_one N K n hK hn]
    apply Finset.sum_le_sum_of_subset_of_nonneg
    · exact Finset.range_subset.mpr (by omega)
    · intro j hj hnj
      exact hypergeomPmf_nonneg _ _ _ _

/-- The cdf at k - 1 plus the point mass at k is the cdf at k, for k not
negative. -/
lemma hypergeomCdf_add_pmf (N K n k : Int) (hk : 0 ≤ k) :
    hypergeomCdf (k - 1) N K n + hypergeomPmf k N K n = hypergeomCdf k N K n := by
  unfold hypergeomCdf
  by_cases h0 : k = 0
  · subst h0
    rw [if_pos (by omega), if_neg (by omega)]
    norm_num [Finset.sum_range_one]
  · rw [if_neg (by omega), if_neg (by omega)]
    have ht : k.toNat + 1 = ((k - 1).toNat + 1) + 1 := by omega
    rw [ht, Finset.sum_range_succ (fun j : ℕ => hypergeomPmf (j : Int) N K n)
      ((k - 1).toNat + 1)]
    have hcast : (((k - 1).toNat + 1 : ℕ) : Int) = k := by omega
    rw [hcast]

/-- The cdf evaluated at or beyond the top of the support, min(n, K),
but within the summation range, is 1. -/
lemma hypergeomCdf_eq_one_of_ge (N K n : ℕ) (hK : K ≤ N) (hn : n ≤ N) (t : Int)
    (h1 : ((min n K : ℕ) : Int) ≤ t) (h2 : t ≤ (n : Int)) :
    hypergeomCdf t (N : Int) (K : Int) (n : Int) = 1 := by
  unfold hypergeomCdf
  rw [if_neg (by omega)]
  rw [← pmf_sum_eq_one N K n hK hn]
  apply Finset.sum_subset
  · exact Finset.range_subset.mpr (by omega)
  · intro j hj hnj
    have hj1 : j < n + 1 := Finset.mem_range.mp hj
    have hj2 : ¬ j < t.toNat + 1 := fun hcon => hnj (Finset.mem_range.mpr hcon)
    have hjK : (K : Int) < (j : Int) := by omega
    unfold hypergeomPmf
    rw [binomCoeff_eq_zero_of_lt (K : Int) (j : Int) hjK]
    norm_num

/-- With the four fields set to nonnegative ints in the feasible
configuration, validation returns normally. -/
lemma validate_inputs_ok_of (N K n k : Int) (s : String)
    (hN0 : 0 ≤ N) (hK0 : 0 ≤ K) (hn0 : 0 ≤ n) (hk0 : 0 ≤ k)
    (hnN : n ≤ N) (hKN : K ≤ N) (hkn : k ≤ n) :
    validate_inputs ⟨PyVal.vInt N, PyVal.vInt K, PyVal.vInt n, PyVal.vInt k, s⟩
      = Except.ok () := by
  unfold validate_inputs
  simp only [PyVal.toInt, PyVal.isInstanceInt]
  rw [if_neg (by simp), if_neg (by simp), if_neg (by omega), if_neg (by omega)]

/-- Under the same hypotheses, calculate_all_probabilities returns the
triple built from the modelled scipy calls. -/
lemma calculate_all_probabilities_eq (N K n k : Int) (s : String)
    (hN0 : 0 ≤ N) (hK0 : 0 ≤ K) (hn0 : 0 ≤ n) (hk0 : 0 ≤ k)
    (hnN : n ≤ N) (hKN : K ≤ N) (hkn : k ≤ n) :
    calculate_all_probabilities ⟨PyVal.vInt N, PyVal.vInt K, PyVal.vInt n, PyVal.vInt k, s⟩
      = Except.ok (hypergeomCdf (k - 1) N K n, hypergeomPmf k N K n,
          1 - (hypergeomCdf (k - 1) N K n + hypergeomPmf k N K n)) := by
  unfold calculate_all_probabilities
  rw [validate_inputs_ok_of N K n k s hN0 hK0 hn0 hk0 hnN hKN hkn]
  rfl

/-- Success and failure relabeling at the level of the modelled pmf. -/
lemma hypergeomPmf_symm (k N K n : Int) :
    hypergeomPmf k N K n = hypergeomPmf (n - k) N (N - K) n := by
  unfold hypergeomPmf
  rw [show N - (N - K) = K by ring, show n - (n - k) = k by ring]
  ring

/-! ## Claims -/

/-- C1: for every validated parameter set with 0 ≤ K ≤ N, 0 ≤ n ≤ N and
0 ≤ k ≤ n, calculate_probability returns the hypergeometric point mass
C(K, k) * C(N - K, n - k) / C(N, n), with C(a, b) equal to 0 when b < 0
or b > a, and the returned value lies in the interval from 0 to 1. -/
theorem calculate_probability_exact_point_mass (N K n k : Int) (s : String)
    (hK0 : 0 ≤ K) (hKN : K ≤ N) (hn0 : 0 ≤ n) (hnN : n ≤ N)
    (hk0 : 0 ≤ k) (hkn : k ≤ n) :
    ∃ p, calculate_probability ⟨PyVal.vInt N, PyVal.vInt K, PyVal.vInt n, PyVal.vInt k, s⟩
        = Except.ok p
      ∧ p = (binomCoeff K k : ℚ) * (binomCoeff (N - K) (n - k) : ℚ) / (binomCoeff N n : ℚ)
      ∧ 0 ≤ p ∧ p ≤ 1 := by
  have hN0 : 0 ≤ N := le_trans hn0 hnN
  refine ⟨hypergeomPmf k N K n, ?_, rfl, hypergeomPmf_nonneg k N K n,
    hypergeomPmf_le_one N K n k hK0 hKN hn0 hnN⟩
  unfold calculate_probability
  rw [validate_inputs_ok_of N K n k s hN0 hK0 hn0 hk0 hnN hKN hkn]
  rfl

/-- Witness for C1 at the deck scenario N = 52, K = 13, n = 5, k = 2. -/
theorem calculate_probability_exact_point_mass_witness :
    ∃ p, calculate_probability
        ⟨PyVal.vInt 52, PyVal.vInt 13, PyVal.vInt 5, PyVal.vInt 2, "Scenario 1"⟩
        = Except.ok p
      ∧ p = (binomCoeff 13 2 : ℚ) * (binomCoeff (52 - 13) (5 - 2) : ℚ) / (binomCoeff 52 5 : ℚ)
      ∧ 0 ≤ p ∧ p ≤ 1 :=
  calculate_probability_exact_point_mass 52 13 5 2 "Scenario 1" (by norm_num)
    (by norm_num) (by norm_num) (by norm_num) (by norm_num) (by norm_num)

/-- C2: validate_inputs fails with an error message exactly when a field
is unset, a field is not an integer by isinstance, a field is negative,
or n exceeds N, K exceeds N, or k exceeds n; on every other input it
returns normally with no output. -/
theorem validate_inputs_error_iff (c : HypergeometricCalculator) :
    ((∃ e, validate_inputs c = Except.error e) ↔
      ((c.N = PyVal.vNone ∨ c.K = PyVal.vNone ∨ c.n = PyVal.vNone ∨ c.k = PyVal.vNone)
        ∨ ¬(c.N.isInstanceInt ∧ c.K.isInstanceInt ∧ c.n.isInstanceInt ∧ c.k.isInstanceInt)
        ∨ (c.N.toInt < 0 ∨ c.K.toInt < 0 ∨ c.n.toInt < 0 ∨ c.k.toInt < 0)
        ∨ (c.n.toInt > c.N.toInt ∨ c.K.toInt > c.N.toInt ∨ c.k.toInt > c.n.toInt)))
    ∧ (validate_inputs c = Except.ok () ↔
      ¬((c.N = PyVal.vNone ∨ c.K = PyVal.vNone ∨ c.n = PyVal.vNone ∨ c.k = PyVal.vNone)
        ∨ ¬(c.N.isInstanceInt ∧ c.K.isInstanceInt ∧ c.n.isInstanceInt ∧ c.k.isInstanceInt)
        ∨ (c.N.toInt < 0 ∨ c.K.toInt < 0 ∨ c.n.toInt < 0 ∨ c.k.toInt < 0)
        ∨ (c.n.toInt > c.N.toInt ∨ c.K.toInt > c.N.toInt ∨ c.k.toInt > c.n.toInt))) := by
  unfold validate_inputs
  split_ifs with h1 h2 h3 h4 <;> constructor <;> simp_all

/-- C5: the exact probability is invariant under the success and failure
relabeling that replaces K with N - K and k with n - k, for every valid
parameter set. -/
theorem calculate_probability_symmetry (N K n k : Int) (s t : String)
    (hK0 : 0 ≤ K) (hKN : K ≤ N) (hn0 : 0 ≤ n) (hnN : n ≤ N)
    (hk0 : 0 ≤ k) (hkn : k ≤ n) :
    calculate_probability ⟨PyVal.vInt N, PyVal.vInt K, PyVal.vInt n, PyVal.vInt k, s⟩
      = calculate_probability
        ⟨PyVal.vInt N, PyVal.vInt (N - K), PyVal.vInt n, PyVal.vInt (n - k), t⟩ := by
  have hN0 : 0 ≤ N := le_trans hn0 hnN
  unfold calculate_probability
  rw [validate_inputs_ok_of N K n k s hN0 hK0 hn0 hk0 hnN hKN hkn]
  rw [validate_inputs_ok_of N (N - K) n (n - k) t hN0 (by omega) hn0 (by omega)
    hnN (by omega) (by omega)]
  simp only [PyVal.toInt]
  rw [hypergeomPmf_symm k N K n]

/-- Witness for C5 at N = 52, K = 13, n = 5, k = 2. -/
theorem calculate_probability_symmetry_witness :
    calculate_probability ⟨PyVal.vInt 52, PyVal.vInt 13, PyVal.vInt 5, PyVal.vInt 2, "a"⟩
      = calculate_probability
        ⟨PyVal.vInt 52, PyVal.vInt (52 - 13), PyVal.vInt 5, PyVal.vInt (5 - 2), "b"⟩ :=
  calculate_probability_symmetry 52 13 5 2 "a" "b" (by norm_num) (by norm_num)
    (by norm_num) (by norm_num) (by norm_num) (by norm_num)

/-- C9: set_parameters with all five arguments replaces all five fields
of the object at once, whatever their previous values. -/
theorem set_parameters_replaces_all_fields (c : HypergeometricCalculator)
    (N K n k : PyVal) (s : String) :
    set_parameters c N K n k (some s) = ⟨N, K, n, k, s⟩ :=
  rfl

/-- C10: validation accepts Python booleans as integers: with the four
fields set to True, False, True, False (the values 1, 0, 1, 0) the
validation returns normally and both compute operations produce a
probability. -/
theorem validate_inputs_accepts_bools :
    validate_inputs
        ⟨PyVal.vBool true, PyVal.vBool false, PyVal.vBool true, PyVal.vBool false, "bools"⟩
      = Except.ok ()
    ∧ calculate_probability
        ⟨PyVal.vBool true, PyVal.vBool false, PyVal.vBool true, PyVal.vBool false, "bools"⟩
      = Except.ok 1
    ∧ calculate_all_probabilities
        ⟨PyVal.vBool true, PyVal.vBool false, PyVal.vBool true, PyVal.vBool false, "bools"⟩
      = Except.ok (0, 1, 0) := by
  have hv : validate_inputs
      ⟨PyVal.vBool true, PyVal.vBool false, PyVal.vBool true, PyVal.vBool false, "bools"⟩
      = Except.ok () := rfl
  refine ⟨hv, ?_, ?_⟩
  · unfold calculate_probability
    rw [hv]
    norm_num [PyVal.toInt, hypergeomPmf, binomCoeff]
  · unfold calculate_all_probabilities
    rw [hv]
    norm_num [PyVal.toInt, hypergeomPmf, hypergeomCdf, binomCoeff]

/-- C3: for every valid parameter set, calculate_all_probabilities
returns a triple with each component between 0 and 1 whose components
sum to 1 within the tolerance of one billionth. -/
theorem calculate_all_probabilities_partition (N K n k : Int) (s : String)
    (hK0 : 0 ≤ K) (hKN : K ≤ N) (hn0 : 0 ≤ n) (hnN : n ≤ N)
    (hk0 : 0 ≤ k) (hkn : k ≤ n) :
    ∃ pl pe pm,
      calculate_all_probabilities ⟨PyVal.vInt N, PyVal.vInt K, PyVal.vInt n, PyVal.vInt k, s⟩
        = Except.ok (pl, pe, pm)
      ∧ 0 ≤ pl ∧ pl ≤ 1 ∧ 0 ≤ pe ∧ pe ≤ 1 ∧ 0 ≤ pm ∧ pm ≤ 1
      ∧ |pl + pe + pm - 1| ≤ 1 / 1000000000 := by
  have hN0 : 0 ≤ N := le_trans hn0 hnN
  lift N to ℕ using hN0
  lift K to ℕ using hK0
  lift n to ℕ using hn0
  lift k to ℕ using hk0
  have hK : K ≤ N := by exact_mod_cast hKN
  have hn : n ≤ N := by exact_mod_cast hnN
  have hk : k ≤ n := by exact_mod_cast hkn
  refine ⟨_, _, _, calculate_all_probabilities_eq (N : Int) (K : Int) (n : Int) (k : Int) s
    (Int.natCast_nonneg N) (Int.natCast_nonneg K) (Int.natCast_nonneg n)
    (Int.natCast_nonneg k) hnN hKN hkn, ?_, ?_, ?_, ?_, ?_, ?_, ?_⟩
  all_goals
    have h1 : (0 : ℚ) ≤ hypergeomCdf ((k : Int) - 1) (N : Int) (K : Int) (n : Int) :=
      hypergeomCdf_nonneg _ _ _ _
    have h2 : (0 : ℚ) ≤ hypergeomPmf (k : Int) (N : Int) (K : Int) (n : Int) :=
      hypergeomPmf_nonneg _ _ _ _
    have h3 : hypergeomCdf ((k : Int) - 1) (N : Int) (K : Int) (n : Int)
        + hypergeomPmf (k : Int) (N : Int) (K : Int) (n : Int)
        = hypergeomCdf (k : Int) (N : Int) (K : Int) (n : Int) :=
      hypergeomCdf_add_pmf _ _ _ _ (Int.natCast_nonneg k)
    have h4 : hypergeomCdf (k : Int) (N : Int) (K : Int) (n : Int) ≤ 1 :=
      hypergeomCdf_le_one N K n hK hn _ (by exact_mod_cast hk)
    have h5 : hypergeomPmf (k : Int) (N : Int) (K : Int) (n : Int) ≤ 1 :=
      hypergeomPmf_le_one _ _ _ _ (Int.natCast_nonneg K) hKN (Int.natCast_nonneg n) hnN
  · exact h1
  · linarith
  · exact h2
  · exact h5
  · linarith
  · linarith
  · rw [show hypergeomCdf ((k : Int) - 1) (N : Int) (K : Int) (n : Int)
        + hypergeomPmf (k : Int) (N : Int) (K : Int) (n : Int)
        + (1 - (hypergeomCdf ((k : Int) - 1) (N : Int) (K : Int) (n : Int)
          + hypergeomPmf (k : Int) (N : Int) (K : Int) (n : Int))) - 1 = (0 : ℚ) from by ring]
    norm_num

/-- Witness for C3 at N = 10, K = 5, n = 4, k = 2. -/
theorem calculate_all_probabilities_partition_witness :
    ∃ pl pe pm,
      calculate_all_probabilities ⟨PyVal.vInt 10, PyVal.vInt 5, PyVal.vInt 4, PyVal.vInt 2, "w"⟩
        = Except.ok (pl, pe, pm)
      ∧ 0 ≤ pl ∧ pl ≤ 1 ∧ 0 ≤ pe ∧ pe ≤ 1 ∧ 0 ≤ pm ∧ pm ≤ 1
      ∧ |pl + pe + pm - 1| ≤ 1 / 1000000000 :=
  calculate_all_probabilities_partition 10 5 4 2 "w" (by norm_num) (by norm_num)
    (by norm_num) (by norm_num) (by norm_num) (by norm_num)

/-- C4: for every valid parameter set with k at the maximum feasible
value min(n, K), the third component returned by
calculate_all_probabilities is 0. -/
theorem calculate_all_probabilities_more_zero_at_max (N K n k : Int) (s : String)
    (hK0 : 0 ≤ K) (hKN : K ≤ N) (hn0 : 0 ≤ n) (hnN : n ≤ N) (hk : k = min n K) :
    ∃ pl pe,
      calculate_all_probabilities ⟨PyVal.vInt N, PyVal.vInt K, PyVal.vInt n, PyVal.vInt k, s⟩
        = Except.ok (pl, pe, 0) := by
  have hN0 : 0 ≤ N := le_trans hn0 hnN
  lift N to ℕ using hN0
  lift K to ℕ using hK0
  lift n to ℕ using hn0
  have hK : K ≤ N := by exact_mod_cast hKN
  have hn : n ≤ N := by exact_mod_cast hnN
  have hk0 : 0 ≤ k := by
    rw [hk]
    exact le_min (Int.natCast_nonneg n) (Int.natCast_nonneg K)
  have hkn : k ≤ (n : Int) := by
    rw [hk]
    exact min_le_left _ _
  have heq := calculate_all_probabilities_eq (N : Int) (K : Int) (n : Int) k s
    (Int.natCast_nonneg N) (Int.natCast_nonneg K) (Int.natCast_nonneg n) hk0 hnN hKN hkn
  have h1 : ((min n K : ℕ) : Int) ≤ k := by
    rw [hk]
    push_cast
    exact le_refl _
  have hz : 1 - (hypergeomCdf (k - 1) (N : Int) (K : Int) (n : Int)
      + hypergeomPmf k (N : Int) (K : Int) (n : Int)) = 0 := by
    rw [hypergeomCdf_add_pmf (N : Int) (K : Int) (n : Int) k hk0]
    rw [hypergeomCdf_eq_one_of_ge N K n hK hn k h1 hkn]
    ring
  rw [hz] at heq
  exact ⟨_, _, heq⟩

/-- Witness for C4 at N = 10, K = 5, n = 4, k = 4 = min(4, 5). -/
theorem calculate_all_probabilities_more_zero_at_max_witness :
    ∃ pl pe,
      calculate_all_probabilities ⟨PyVal.vInt 10, PyVal.vInt 5, PyVal.vInt 4, PyVal.vInt 4, "m"⟩
        = Except.ok (pl, pe, 0) :=
  calculate_all_probabilities_more_zero_at_max 10 5 4 4 "m" (by norm_num) (by norm_num)
    (by norm_num) (by norm_num) (by norm_num)

/-- C6: for every valid parameter set with k equal to 0 the first
component returned by calculate_all_probabilities is exactly 0, and in
the concrete scenario N = 10, K = 5, n = 4, k = 0 the triple starts with
0 followed by the point mass 5 / 210. -/
theorem calculate_all_probabilities_less_zero_at_k_zero (N K n : Int) (s : String)
    (hK0 : 0 ≤ K) (hKN : K ≤ N) (hn0 : 0 ≤ n) (hnN : n ≤ N) :
    (∃ pe pm,
      calculate_all_probabilities ⟨PyVal.vInt N, PyVal.vInt K, PyVal.vInt n, PyVal.vInt 0, s⟩
        = Except.ok (0, pe, pm))
    ∧ calculate_all_probabilities
        ⟨PyVal.vInt 10, PyVal.vInt 5, PyVal.vInt 4, PyVal.vInt 0, "Scenario 3"⟩
      = Except.ok (0, 5 / 210, 41 / 42) := by
  constructor
  · have hN0 : 0 ≤ N := le_trans hn0 hnN
    have heq := calculate_all_probabilities_eq N K n 0 s hN0 hK0 hn0 le_rfl hnN hKN hn0
    have h0 : hypergeomCdf ((0 : Int) - 1) N K n = 0 := by
      unfold hypergeomCdf
      rw [if_pos (by omega)]
    rw [h0] at heq
    exact ⟨_, _, heq⟩
  · have hc : hypergeomCdf ((0 : Int) - 1) 10 5 4 = 0 := by
      unfold hypergeomCdf
      rw [if_pos (by omega)]
    have hp : hypergeomPmf (0 : Int) 10 5 4 = 5 / 210 := by
      have e1 := binomCoeff_natCast 5 0
      have e2 := binomCoeff_natCast 5 4
      have e3 := binomCoeff_natCast 10 4
      have c1 : Nat.choose 5 0 = 1 := by decide
      have c2 : Nat.choose 5 4 = 5 := by decide
      have c3 : Nat.choose 10 4 = 210 := by decide
      rw [c1] at e1
      rw [c2] at e2
      rw [c3] at e3
      push_cast at e1 e2 e3
      unfold hypergeomPmf
      rw [show (10 : Int) - 5 = 5 by norm_num, show (4 : Int) - 0 = 4 by norm_num]
      rw [e1, e2, e3]
      norm_num
    rw [calculate_all_probabilities_eq 10 5 4 0 "Scenario 3" (by norm_num) (by norm_num)
      (by norm_num) (by norm_num) (by norm_num) (by norm_num) (by norm_num)]
    rw [hc, hp]
    refine congrArg Except.ok ?_
    simp only [Prod.mk.injEq]
    norm_num

/-- Witness for C6 at N = 10, K = 5, n = 4. -/
theorem calculate_all_probabilities_less_zero_at_k_zero_witness :
    (∃ pe pm,
      calculate_all_probabilities
          ⟨PyVal.vInt 10, PyVal.vInt 5, PyVal.vInt 4, PyVal.vInt 0, "Scenario 3"⟩
        = Except.ok (0, pe, pm))
    ∧ calculate_all_probabilities
        ⟨PyVal.vInt 10, PyVal.vInt 5, PyVal.vInt 4, PyVal.vInt 0, "Scenario 3"⟩
      = Except.ok (0, 5 / 210, 41 / 42) :=
  calculate_all_probabilities_less_zero_at_k_zero 10 5 4 "Scenario 3" (by norm_num)
    (by norm_num) (by norm_num) (by norm_num)

/-- C7: a validation error propagates out of calculate_probability and
calculate_all_probabilities unchanged, while display_probabilities
catches it, prints an error line instead of raising, and leaves every
field of the object unchanged. -/
theorem display_probabilities_catches_validation_error
    (c : HypergeometricCalculator) (e : String)
    (h : validate_inputs c = Except.error e) :
    calculate_probability c = Except.error e
    ∧ calculate_all_probabilities c = Except.error e
    ∧ display_probabilities c = (c, ["Error: " ++ e]) := by
  have h2 : calculate_all_probabilities c = Except.error e := by
    unfold calculate_all_probabilities
    rw [h]
  refine ⟨?_, h2, ?_⟩
  · unfold calculate_probability
    rw [h]
  · unfold display_probabilities
    rw [h2]

/-- Witness for C7 on the freshly constructed object, whose fields are
all unset. -/
theorem display_probabilities_catches_validation_error_witness :
    calculate_probability initCalculator
      = Except.error "All parameters must be set before calculating"
    ∧ calculate_all_probabilities initCalculator
      = Except.error "All parameters must be set before calculating"
    ∧ display_probabilities initCalculator
      = (initCalculator, ["Error: " ++ "All parameters must be set before calculating"]) :=
  display_probabilities_catches_validation_error initCalculator
    "All parameters must be set before calculating" rfl

/-- C8: calculate_all_probabilities is a pure function of the object:
the call leaves the object unchanged, a second call on the unchanged
object returns the identical result, and validation runs again on every
call rather than being cached, so a failing validation fails on both
calls. -/
theorem calculate_all_probabilities_pure (c : HypergeometricCalculator) :
    (calculate_all_probabilities_run c).2 = c
    ∧ (calculate_all_probabilities_run ((calculate_all_probabilities_run c).2)).1
        = (calculate_all_probabilities_run c).1
    ∧ ∀ e, validate_inputs c = Except.error e →
        (calculate_all_probabilities_run c).1 = Except.error e
        ∧ (calculate_all_probabilities_run ((calculate_all_probabilities_run c).2)).1
            = Except.error e := by
  refine ⟨rfl, rfl, ?_⟩
  intro e h
  have h2 : calculate_all_probabilities c = Except.error e := by
    unfold calculate_all_probabilities
    rw [h]
  exact ⟨h2, h2⟩

/-- Witness for C8 on the freshly constructed object. -/
theorem calculate_all_probabilities_pure_witness :
    (calculate_all_probabilities_run initCalculator).2 = initCalculator
    ∧ (calculate_all_probabilities_run ((calculate_all_probabilities_run initCalculator).2)).1
        = (calculate_all_probabilities_run initCalculator).1
    ∧ (calculate_all_probabilities_run initCalculator).1
        = Except.error "All parameters must be set before calculating" :=
  ⟨(calculate_all_probabilities_pure initCalculator).1,
    (calculate_all_probabilities_pure initCalculator).2.1,
    ((calculate_all_probabilities_pure initCalculator).2.2
      "All parameters must be set before calculating" rfl).1⟩
